import Mathlib

/-!
Verification development for the redex configuration-binding framework
(`libredex/Configurable.cpp`): a shallow embedding of the per-type
conversion functions (`Configurable::as<T>`), the bind-flag policy, the
`error_or_warn` failure macro, and the dual-mode `parse_config` / `reflect`
engine, together with theorems settling the specified properties.
-/

/-! ## Document node model (`Json::Value`, the external structured value reader) -/

/-- Modelled from the spec: the external structured-document node
(`Json::Value` of the document reader, an out-of-scope collaborator):
a tree of typed nodes (object, array, string, number, boolean, null),
queried by key and by shape. -/
inductive JsonValue where
  | null
  | bool (b : Bool)
  | int (n : Int)
  | str (s : String)
  | arr (elems : List JsonValue)
  | obj (members : List (String × JsonValue))

/-- Modelled from the spec: `Json::Value::asString` at the node shapes the
conversions exercise (string nodes return their contents; null is empty;
scalars render; aggregates have no string rendering here). -/
def JsonValue.asString : JsonValue → String
  | .str s => s
  | .null => ""
  | .bool b => if b then "true" else "false"
  | .int n => toString n
  | .arr _ => ""
  | .obj _ => ""

/-- Modelled from the spec: the reader's boolean accessor. -/
def JsonValue.asBool : JsonValue → Bool
  | .bool b => b
  | .int n => n ≠ 0
  | _ => false

/-- Modelled from the spec: the reader's integer accessor family
(`asInt`, `asInt64`). -/
def JsonValue.asInt : JsonValue → Int
  | .int n => n
  | .bool b => if b then 1 else 0
  | _ => 0

/-- Modelled from the spec: the reader's unsigned accessor family
(`asUInt`, `asUInt64`). -/
def JsonValue.asUInt : JsonValue → Nat
  | .int n => n.toNat
  | .bool b => if b then 1 else 0
  | _ => 0

/-- Modelled from the spec: the reader's floating accessor `asFloat`. -/
def JsonValue.asFloat : JsonValue → Float
  | .int n => Float.ofInt n
  | _ => 0

/-- Shape query `Json::Value::isObject`. -/
def JsonValue.isObject : JsonValue → Bool
  | .obj _ => true
  | _ => false

/-- Shape query `Json::Value::isArray`. -/
def JsonValue.isArray : JsonValue → Bool
  | .arr _ => true
  | _ => false

/-- Shape query `Json::Value::isString`. -/
def JsonValue.isString : JsonValue → Bool
  | .str _ => true
  | _ => false

/-- Iteration (`for (auto& el : value)`): elements of an array, the values
of an object, nothing for scalars. -/
def JsonValue.elements : JsonValue → List JsonValue
  | .arr xs => xs
  | .obj kvs => kvs.map (fun kv => kv.2)
  | _ => []

/-- Keyed members of an object node (`value.begin() .. value.end()` with
`it.key()` / `*it`); empty for non-objects. -/
def JsonValue.members : JsonValue → List (String × JsonValue)
  | .obj kvs => kvs
  | _ => []

/-- Key lookup (`JsonWrapper::contains` / `operator[]`). -/
def JsonValue.getByKey : JsonValue → String → Option JsonValue
  | .obj kvs, name => kvs.lookup name
  | _, _ => none

/-! ## Failure model -/

/-- A fatal outcome of a conversion: either a failed `always_assert_log`
(process abort) or a thrown `std::runtime_error`. -/
inductive CFailure where
  | assertFail (msg : String)
  | runtimeError (msg : String)
deriving DecidableEq, Repr

/-! ## Bind flags

`bindflags_t` is an unsigned integer, modelled as `Nat`. -/

namespace Configurable

/-- Modelled from the spec: the bind-flag bit constants are declared in
`Configurable.h`, which is not under `src/`; per the spec the flags are
partitioned into disjoint per-category masks (`types`, `classes`,
`methods`, `optionals`), each holding an error/warn severity pair, with
`methods` adding a not-def pair and `optionals` a `skip_empty_string`
modifier. Concrete distinct bits are chosen here; no claim depends on the
particular values. -/
def bindflags.types.error_if_unresolvable : Nat := 0x01

def bindflags.types.warn_if_unresolvable : Nat := 0x02

def bindflags.types.mask : Nat := 0x03

def bindflags.classes.error_if_unresolvable : Nat := 0x04

def bindflags.classes.warn_if_unresolvable : Nat := 0x08

def bindflags.classes.mask : Nat := 0x0C

def bindflags.methods.error_if_unresolvable : Nat := 0x10

def bindflags.methods.warn_if_unresolvable : Nat := 0x20

def bindflags.methods.error_if_not_def : Nat := 0x40

def bindflags.methods.warn_if_not_def : Nat := 0x80

def bindflags.methods.mask : Nat := 0xF0

def bindflags.optionals.skip_empty_string : Nat := 0x100

end Configurable

/-- `hasOnly bits mask` is the C++ test `!(bits & ~mask)`: the set bits of
`bits` all lie inside `mask`. For every width, `bits & ~mask == 0` is
equivalent to `bits & mask == bits`, which is the form used here (the
bitwise complement of `mask` has no finite-width representation on `Nat`). -/
def hasOnly (bits mask : Nat) : Bool := bits &&& mask == bits

/-- The `error_or_warn` macro of `Configurable.cpp` (lines 12-14):
`always_assert_log(!(error), msg)` aborts when the error bit is set;
otherwise `if (!(warn)) fprintf(stderr, msg)` emits the message to the
diagnostic stream exactly when the warn bit is NOT set (this is the
macro as written in the source). Returns the list of diagnostics emitted. -/
def error_or_warn (error warn : Bool) (msg : String) : Except CFailure (List String) :=
  if error then .error (.assertFail msg)
  else if !warn then .ok [msg]
  else .ok []

/-! ## Scalar conversions (`Configurable::as<T>` specializations) -/

namespace Configurable

/-- `as<float>`: `ASSERT_NO_BINDFLAGS(float); return value.asFloat();`. -/
def as_float (value : JsonValue) (bindflags : Nat) : Except CFailure Float :=
  if bindflags = 0 then .ok value.asFloat
  else .error (.assertFail "No bindflags may be specified for a float")

/-- `as<int>`. -/
def as_int (value : JsonValue) (bindflags : Nat) : Except CFailure Int :=
  if bindflags = 0 then .ok value.asInt
  else .error (.assertFail "No bindflags may be specified for a int")

/-- `as<unsigned int>`. -/
def as_uint (value : JsonValue) (bindflags : Nat) : Except CFailure Nat :=
  if bindflags = 0 then .ok value.asUInt
  else .error (.assertFail "No bindflags may be specified for a unsigned int")

/-- `as<long>` (via `asInt64`). -/
def as_long (value : JsonValue) (bindflags : Nat) : Except CFailure Int :=
  if bindflags = 0 then .ok value.asInt
  else .error (.assertFail "No bindflags may be specified for a long")

/-- `as<unsigned long>` (via `asUInt64`). -/
def as_ulong (value : JsonValue) (bindflags : Nat) : Except CFailure Nat :=
  if bindflags = 0 then .ok value.asUInt
  else .error (.assertFail "No bindflags may be specified for a unsigned long")

/-- `as<long long>` (via `asInt64`). -/
def as_longlong (value : JsonValue) (bindflags : Nat) : Except CFailure Int :=
  if bindflags = 0 then .ok value.asInt
  else .error (.assertFail "No bindflags may be specified for a long long")

/-- `as<unsigned long long>` (via `asUInt64`). -/
def as_ulonglong (value : JsonValue) (bindflags : Nat) : Except CFailure Nat :=
  if bindflags = 0 then .ok value.asUInt
  else .error (.assertFail "No bindflags may be specified for a unsigned long long")

/-- `as<bool>`. -/
def as_bool (value : JsonValue) (bindflags : Nat) : Except CFailure Bool :=
  if bindflags = 0 then .ok value.asBool
  else .error (.assertFail "No bindflags may be specified for a bool")

/-- `as<std::string>`. -/
def as_string (value : JsonValue) (bindflags : Nat) : Except CFailure String :=
  if bindflags = 0 then .ok value.asString
  else .error (.assertFail "No bindflags may be specified for a std::string")

/-- `as<Json::Value>`: opaque passthrough of the node. -/
def as_json (value : JsonValue) (bindflags : Nat) : Except CFailure JsonValue :=
  if bindflags = 0 then .ok value
  else .error (.assertFail "No bindflags may be specified for a Json::Value")

/-- `as<boost::optional<std::string>>`: only `optionals::skip_empty_string`
is legal; an empty string collapses to absent exactly when that flag is
set. -/
def as_optional_string (value : JsonValue) (bindflags : Nat) :
    Except CFailure (Option String) :=
  if hasOnly bindflags Configurable.bindflags.optionals.skip_empty_string then
    let str := value.asString
    if str = "" ∧ bindflags &&& Configurable.bindflags.optionals.skip_empty_string ≠ 0 then
      .ok none
    else
      .ok (some str)
  else
    .error (.assertFail
      "Only bindflags::optionals::skip_empty_string may be specified for a boost::optional<std::string>")

/-- `as<std::vector<std::string>>`: every element in encounter order. -/
def as_vector_string (value : JsonValue) (bindflags : Nat) :
    Except CFailure (List String) :=
  if bindflags = 0 then
    .ok (value.elements.map (fun el => el.asString))
  else .error (.assertFail "No bindflags may be specified for a std::vector<std::string>")

/-- `as<std::unordered_set<std::string>>`: elements inserted into a set
(`result.emplace(str.asString())`), the unordered container modelled as a
`Finset`. -/
def as_set_string (value : JsonValue) (bindflags : Nat) :
    Except CFailure (Finset String) :=
  if bindflags = 0 then
    .ok (value.elements.foldl (fun acc el => insert el.asString acc) ∅)
  else .error (.assertFail "No bindflags may be specified for a std::unordered_set<std::string>")

end Configurable

/-! ## Symbol tables (external collaborator) -/

/-- Modelled from the spec: the host program's symbol tables, an external
collaborator (`DexType::get_type`, `DexString::get_string`, `type_class`,
`DexMethod::get_method`, `DexMethod::is_def`). Resolved symbols
(`DexType*`, `DexClass*`, `DexMethod*`) are opaque non-null handles,
modelled as `Nat`; a failed lookup is `none` (a null pointer). -/
structure SymbolTables where
  getTypeByName : String → Option Nat
  getStringByName : String → Option Nat
  getTypeByString : Nat → Option Nat
  typeClass : Nat → Option Nat
  getMethodByName : String → Option Nat
  methodIsDef : Nat → Bool

/-- The class-resolution chain of `as<std::unordered_set<DexClass*>>`:
`type_class(DexType::get_type(DexString::get_string(str)))`, with a null
result at any stage propagating to a null class. -/
def SymbolTables.resolveClass (st : SymbolTables) (s : String) : Option Nat :=
  ((st.getStringByName s).bind st.getTypeByString).bind st.typeClass

/-- Whether a name resolves to a method that is not a concrete definition
(`meth != nullptr && !meth->is_def()`). -/
def SymbolTables.resolvesNonDef (st : SymbolTables) (s : String) : Bool :=
  match st.getMethodByName s with
  | some m => !st.methodIsDef m
  | none => false

namespace Configurable

/-- Element loop of `as<std::vector<DexType*>>` (lines 179-191): resolve
each child string against the type table; an unresolvable name goes
through `error_or_warn` with the `types` severity bits, a resolved type is
appended in encounter order. Accumulates the result vector and the
diagnostics emitted. -/
def typeVecLoop (st : SymbolTables) (bindflags : Nat) :
    List JsonValue → List Nat → List String → Except CFailure (List Nat × List String)
  | [], acc, ds => .ok (acc, ds)
  | el :: rest, acc, ds =>
    match st.getTypeByName el.asString with
    | none =>
      match error_or_warn
          (bindflags &&& Configurable.bindflags.types.error_if_unresolvable ≠ 0)
          (bindflags &&& Configurable.bindflags.types.warn_if_unresolvable ≠ 0)
          ("\"" ++ el.asString ++ "\" failed to resolve to a known type") with
      | .error f => .error f
      | .ok ds2 => typeVecLoop st bindflags rest acc (ds ++ ds2)
    | some t => typeVecLoop st bindflags rest (acc ++ [t]) ds

/-- `as<std::vector<DexType*>>`: only `types` bindflags are legal. -/
def as_vector_DexType (st : SymbolTables) (value : JsonValue) (bindflags : Nat) :
    Except CFailure (List Nat × List String) :=
  if hasOnly bindflags Configurable.bindflags.types.mask then
    typeVecLoop st bindflags value.elements [] []
  else
    .error (.assertFail "Only type bindflags may be specified for a std::vector<DexType*>")

/-- Element loop of the `DexType*` set conversions (lines 202-215 and
226-238): as `typeVecLoop` but inserting into an unordered set. -/
def typeSetLoop (st : SymbolTables) (bindflags : Nat) :
    List JsonValue → Finset Nat → List String → Except CFailure (Finset Nat × List String)
  | [], acc, ds => .ok (acc, ds)
  | el :: rest, acc, ds =>
    match st.getTypeByName el.asString with
    | none =>
      match error_or_warn
          (bindflags &&& Configurable.bindflags.types.error_if_unresolvable ≠ 0)
          (bindflags &&& Configurable.bindflags.types.warn_if_unresolvable ≠ 0)
          ("\"" ++ el.asString ++ "\" failed to resolve to a known type") with
      | .error f => .error f
      | .ok ds2 => typeSetLoop st bindflags rest acc (ds ++ ds2)
    | some t => typeSetLoop st bindflags rest (insert t acc) ds

/-- `as<std::unordered_set<DexType*>>`: only `types` bindflags are legal;
the assertion message renders the supplied flags (`you specified 0x%08x`,
the hex formatting elided here). -/
def as_set_DexType (st : SymbolTables) (value : JsonValue) (bindflags : Nat) :
    Except CFailure (Finset Nat × List String) :=
  if hasOnly bindflags Configurable.bindflags.types.mask then
    typeSetLoop st bindflags value.elements ∅ []
  else
    .error (.assertFail
      ("Only type bindflags may be specified for a std::unordered_set<DexType*>, you specified "
        ++ toString bindflags))

/-- `as<std::unordered_set<const DexType*>>`: same loop, distinct
specialization (lines 219-239). -/
def as_set_constDexType (st : SymbolTables) (value : JsonValue) (bindflags : Nat) :
    Except CFailure (Finset Nat × List String) :=
  if hasOnly bindflags Configurable.bindflags.types.mask then
    typeSetLoop st bindflags value.elements ∅ []
  else
    .error (.assertFail "Only type bindflags may be specified for a std::unordered_set<DexType*>")

/-- Element loop of `as<std::unordered_set<DexClass*>>` (lines 248-260):
the class chain `type_class(get_type(get_string(str)))` with the `classes`
severity bits. -/
def classSetLoop (st : SymbolTables) (bindflags : Nat) :
    List JsonValue → Finset Nat → List String → Except CFailure (Finset Nat × List String)
  | [], acc, ds => .ok (acc, ds)
  | el :: rest, acc, ds =>
    match st.resolveClass el.asString with
    | none =>
      match error_or_warn
          (bindflags &&& Configurable.bindflags.classes.error_if_unresolvable ≠ 0)
          (bindflags &&& Configurable.bindflags.classes.warn_if_unresolvable ≠ 0)
          ("\"" ++ el.asString ++ "\" failed to resolve to a known class") with
      | .error f => .error f
      | .ok ds2 => classSetLoop st bindflags rest acc (ds ++ ds2)
    | some c => classSetLoop st bindflags rest (insert c acc) ds

/-- `as<std::unordered_set<DexClass*>>`: only `classes` bindflags are legal. -/
def as_set_DexClass (st : SymbolTables) (value : JsonValue) (bindflags : Nat) :
    Except CFailure (Finset Nat × List String) :=
  if hasOnly bindflags Configurable.bindflags.classes.mask then
    classSetLoop st bindflags value.elements ∅ []
  else
    .error (.assertFail "Only type bindflags may be specified for a std::unordered_set<DexClass*>")

/-- Element loop of `as<std::unordered_set<DexMethod*>>` (lines 270-291):
a name that fails to resolve goes through `error_or_warn` with the
unresolvable pair; a name that resolves to a non-definition method
(`!meth->is_def()`) goes through `error_or_warn` with the not-def pair,
checked only after resolution succeeded; only concrete definitions are
inserted. -/
def methodSetLoop (st : SymbolTables) (bindflags : Nat) :
    List JsonValue → Finset Nat → List String → Except CFailure (Finset Nat × List String)
  | [], acc, ds => .ok (acc, ds)
  | el :: rest, acc, ds =>
    match st.getMethodByName el.asString with
    | none =>
      match error_or_warn
          (bindflags &&& Configurable.bindflags.methods.error_if_unresolvable ≠ 0)
          (bindflags &&& Configurable.bindflags.methods.warn_if_unresolvable ≠ 0)
          ("\"" ++ el.asString ++ "\" failed to resolve to a known method") with
      | .error f => .error f
      | .ok ds2 => methodSetLoop st bindflags rest acc (ds ++ ds2)
    | some m =>
      if !st.methodIsDef m then
        match error_or_warn
            (bindflags &&& Configurable.bindflags.methods.error_if_not_def ≠ 0)
            (bindflags &&& Configurable.bindflags.methods.warn_if_not_def ≠ 0)
            ("\"" ++ el.asString ++ "\" resolved to a method reference") with
        | .error f => .error f
        | .ok ds2 => methodSetLoop st bindflags rest acc (ds ++ ds2)
      else
        methodSetLoop st bindflags rest (insert m acc) ds

/-- `as<std::unordered_set<DexMethod*>>`: only `methods` bindflags are
legal. -/
def as_set_DexMethod (st : SymbolTables) (value : JsonValue) (bindflags : Nat) :
    Except CFailure (Finset Nat × List String) :=
  if hasOnly bindflags Configurable.bindflags.methods.mask then
    methodSetLoop st bindflags value.elements ∅ []
  else
    .error (.assertFail "Only method bindflags may be specified for a std::unordered_set<DexMethod*>")

/-! ## The nested map conversion -/

/-- `result[k].emplace_back(s)` on a `std::unordered_map<std::string,
std::vector<std::string>>`: append `s` to the vector under `k`, creating
the entry when absent (modelled as an association list keyed once per
key). -/
def movAppend : List (String × List String) → String → String → List (String × List String)
  | [], k, s => [(k, [s])]
  | (k', vs) :: rest, k, s =>
    if k' = k then (k', vs ++ [s]) :: rest else (k', vs) :: movAppend rest k s

/-- Inner element loop of the map conversion (lines 312-317): each element
under key `k` must be a string, else `std::runtime_error`; strings are
appended under `k`. -/
def movElemLoop (k : String) :
    List JsonValue → List (String × List String) → Except CFailure (List (String × List String))
  | [], acc => .ok acc
  | el :: rest, acc =>
    if !el.isString then .error (.runtimeError ("expected string, got:" ++ el.asString))
    else movElemLoop k rest (movAppend acc k el.asString)

/-- Outer member loop of the map conversion (lines 303-318): each value
must be an array, else `std::runtime_error` (object keys are strings by
the reader's contract, so the `k.isString()` guard of line 306 cannot
fire). -/
def movMemberLoop :
    List (String × JsonValue) → List (String × List String) → Except CFailure (List (String × List String))
  | [], acc => .ok acc
  | (k, v) :: rest, acc =>
    if !v.isArray then .error (.runtimeError ("expected array, got:" ++ v.asString))
    else
      match movElemLoop k v.elements acc with
      | .error f => .error f
      | .ok acc2 => movMemberLoop rest acc2

/-- `as<Configurable::MapOfVectorOfStrings>` (lines 294-320): no bindflags
are legal; a non-object node throws `std::runtime_error`; otherwise each
key's array of strings is appended entry by entry. -/
def as_MapOfVectorOfStrings (value : JsonValue) (bindflags : Nat) :
    Except CFailure (List (String × List String)) :=
  if bindflags = 0 then
    if !value.isObject then
      .error (.runtimeError ("expected object, got:" ++ value.asString))
    else
      movMemberLoop value.members []
  else
    .error (.assertFail "No bindflags may be specified for a Configurable::MapOfVectorOfStrings")

end Configurable

/-! ## The Schema Tree (`ConfigurableReflection`) -/

/-- `ConfigurableReflection::Type`: the kind tag of a schema entry. -/
inductive CRKind where
  | PRIMITIVE
  | COMPOSITE
deriving DecidableEq, Repr

mutual

/-- The Schema Tree: name, doc, and a keyed mapping from parameter name to
its entry (`std::map<std::string, std::tuple<std::string,
ConfigurableReflection, Type, std::string>> params`), modelled as an
association list with at most one entry per key. -/
inductive ConfigurableReflection where
  | mk (name : String) (doc : String) (params : List CRParam)

/-- One `params` entry: key and the stored 4-tuple
(primitive-type-name, nested tree, kind, doc). -/
inductive CRParam where
  | mk (key : String) (typeName : String) (nested : ConfigurableReflection)
       (kind : CRKind) (doc : String)

end

def ConfigurableReflection.name : ConfigurableReflection → String
  | .mk n _ _ => n

def ConfigurableReflection.doc : ConfigurableReflection → String
  | .mk _ d _ => d

def ConfigurableReflection.params : ConfigurableReflection → List CRParam
  | .mk _ _ ps => ps

/-- The default-constructed `ConfigurableReflection()`. -/
def ConfigurableReflection.empty : ConfigurableReflection := .mk "" "" []

/-- Whether a tree is the default-constructed empty tree (nothing
populated: no name, no doc, no params). -/
def ConfigurableReflection.isEmpty : ConfigurableReflection → Bool
  | .mk n d ps => n == "" && d == "" && ps.isEmpty

def CRParam.key : CRParam → String
  | .mk k _ _ _ _ => k

def CRParam.typeName : CRParam → String
  | .mk _ t _ _ _ => t

def CRParam.nested : CRParam → ConfigurableReflection
  | .mk _ _ n _ _ => n

def CRParam.kind : CRParam → CRKind
  | .mk _ _ _ k _ => k

def CRParam.docString : CRParam → String
  | .mk _ _ _ _ d => d

/-- `cr.params[key] = entry` on the keyed map: replace the entry with the
same key, else append. -/
def setParams : List CRParam → CRParam → List CRParam
  | [], e => [e]
  | p :: ps, e => if p.key = e.key then e :: ps else p :: setParams ps e

/-- Number of entries stored under a key. -/
def countKey (k : String) : List CRParam → Nat
  | [] => 0
  | p :: ps => (if p.key = k then 1 else 0) + countKey k ps

/-- The entry stored under a key, if any. -/
def lookupKey (k : String) : List CRParam → Option CRParam
  | [] => none
  | p :: ps => if p.key = k then some p else lookupKey k ps

/-! ## The declaration procedure (`bind_config`) and the dual-mode engine -/

/-- The closed registry of primitive target value shapes, one per
`Configurable::as<T>` specialization of `Configurable.cpp`. -/
inductive PrimShape where
  | float | int | uint | long | ulong | longlong | ulonglong | bool
  | string | json | optString | vecString | setString | vecType
  | setType | setConstType | setClass | setMethod | mapVecString
deriving DecidableEq, Repr

/-- The per-shape primitive type name passed to the reflector, from the
`IMPLEMENT_REFLECTOR` / `IMPLEMENT_REFLECTOR_EX` instantiations
(lines 356-374). -/
def reflectorTypeName : PrimShape → String
  | .float => "float"
  | .bool => "bool"
  | .int => "int"
  | .uint => "int"
  | .long => "long"
  | .ulong => "long"
  | .longlong => "long"
  | .ulonglong => "long"
  | .string => "string"
  | .json => "json"
  | .optString => "string"
  | .vecString => "list"
  | .setString => "set"
  | .vecType => "list"
  | .setConstType => "set"
  | .setType => "set"
  | .setClass => "set"
  | .setMethod => "set"
  | .mapVecString => "dict"

/-- The type descriptor a declaration's bind call carries to the
reflector. `primitive` covers the registry above; `composite` is
Modelled from the spec: the reflect helper for a nested configurable unit
(declared in `Configurable.h`, which is not under `src/`) passes the
sub-unit's already-built Schema Tree with the COMPOSITE kind. -/
inductive ParamType where
  | primitive (p : PrimShape)
  | composite (sub : ConfigurableReflection)

/-- Modelled from the spec: one step of a unit's declaration procedure
(`bind_config`, declared per unit in headers not under `src/`): either a
bind call naming a parameter, its doc, its target shape and its default
node, or a registration of the post-configure hook
(`after_configuration = f`, the hook an opaque handle). -/
inductive BindOp where
  | bindParam (name : String) (doc : String) (ty : ParamType) (dflt : JsonValue)
  | setAfterConfig (h : Nat)

/-- Modelled from the spec: a configurable unit: its `get_config_name()`,
`get_config_doc()`, and its declaration procedure as the ordered sequence
of bind calls it issues. -/
structure CUnit where
  name : String
  doc : String
  ops : List BindOp

/-- The mutable engine members of a `Configurable`: the registered
post-configure hook (`m_after_configuration`), the installed parse
environment (`some doc` is the BIND closure over the document installed by
`parse_config`, `none` the always-absent REFLECT one), and the unit's
bound fields (name to last-written node, `none` when never written). -/
@[ext]
structure EngineState where
  after_configuration : Option Nat
  parserEnv : Option JsonValue
  fields : String → Option JsonValue

/-- Behavior of the installed `m_parser`: the BIND closure answers the
document node under the name when present; the REFLECT one answers
absent for every name. -/
def envLookup : Option JsonValue → String → Option JsonValue
  | none, _ => none
  | some doc, name => doc.getByKey name

/-- Field overwrite by a bind call. -/
def updateField (f : String → Option JsonValue) (name : String) (v : JsonValue) :
    String → Option JsonValue :=
  fun k => if k = name then some v else f k

/-- Modelled from the spec: the value-binding side of one declaration step
(the `bind`/`parse` helpers of `Configurable.h`, not under `src/`): a bind
call queries the installed parse environment and overwrites the target
field with the document node when present, else with the default; a hook
registration overwrites `m_after_configuration`. -/
def bindStep (st : EngineState) : BindOp → EngineState
  | .bindParam name _ _ dflt =>
    { st with fields := updateField st.fields name ((envLookup st.parserEnv name).getD dflt) }
  | .setAfterConfig h => { st with after_configuration := some h }

def runOps (ops : List BindOp) (st : EngineState) : EngineState :=
  ops.foldl bindStep st

/-- The `m_reflector` installed by `reflect()` (lines 45-65): a PRIMITIVE
descriptor stores `(type-name, ConfigurableReflection(), PRIMITIVE, doc)`
under the parameter name, a COMPOSITE one stores
`("", sub-tree, COMPOSITE, doc)`. -/
def mkEntry (name : String) (doc : String) : ParamType → CRParam
  | .primitive p => .mk name (reflectorTypeName p) ConfigurableReflection.empty .PRIMITIVE doc
  | .composite sub => .mk name "" sub .COMPOSITE doc

/-- The schema-tree side of one declaration step under the REFLECT
environment. -/
def crStep (cr : ConfigurableReflection) : BindOp → ConfigurableReflection
  | .bindParam name doc ty _ =>
    match cr with
    | .mk n d ps => .mk n d (setParams ps (mkEntry name doc ty))
  | .setAfterConfig _ => cr

def crRun (ops : List BindOp) (cr : ConfigurableReflection) : ConfigurableReflection :=
  ops.foldl crStep cr

/-- `Configurable::parse_config` (lines 16-34): reset the hook, install
the noop reflector and the BIND parse environment over the document, run
the declaration, then invoke the hook if the declaration registered one.
Returns the resulting state and the list of hook invocations performed. -/
def Configurable.parse_config (u : CUnit) (json : JsonValue) (st : EngineState) :
    EngineState × List Nat :=
  let st1 := runOps u.ops { st with after_configuration := none, parserEnv := some json }
  match st1.after_configuration with
  | some h => (st1, [h])
  | none => (st1, [])

/-- `Configurable::reflect` (lines 36-68): attach the unit's name and doc,
reset the hook, install the always-absent parse environment and the
accumulating reflector, run the declaration, and return the accumulated
tree; the hook is never invoked. Returns the tree, the resulting state and
the (empty) list of hook invocations. -/
def Configurable.reflect (u : CUnit) (st : EngineState) :
    ConfigurableReflection × EngineState × List Nat :=
  (crRun u.ops (.mk u.name u.doc []),
   runOps u.ops { st with after_configuration := none, parserEnv := none },
   [])

/-! ## Helper functions describing declarations -/

/-- Names of the parameters issued by a declaration, in order. -/
def issuedNames : List BindOp → List String
  | [] => []
  | .bindParam n _ _ _ :: ops => n :: issuedNames ops
  | .setAfterConfig _ :: ops => issuedNames ops

/-- Doc and type descriptor of the LAST bind call issued under a name. -/
def lastBindFor : List BindOp → String → Option (String × ParamType)
  | [], _ => none
  | .bindParam n d ty _ :: ops, k =>
    match lastBindFor ops k with
    | some r => some r
    | none => if n = k then some (d, ty) else none
  | .setAfterConfig _ :: ops, k => lastBindFor ops k

/-- Default node of the LAST bind call issued under a name. -/
def lastDefaultFor : List BindOp → String → Option JsonValue
  | [], _ => none
  | .bindParam n _ _ dflt :: ops, k =>
    match lastDefaultFor ops k with
    | some r => some r
    | none => if n = k then some dflt else none
  | .setAfterConfig _ :: ops, k => lastDefaultFor ops k

/-- The LAST hook registration issued by a declaration, if any. -/
def lastHook : List BindOp → Option Nat
  | [] => none
  | .bindParam _ _ _ _ :: ops => lastHook ops
  | .setAfterConfig h :: ops =>
    match lastHook ops with
    | some h2 => some h2
    | none => some h

/-- Hook invocations a single `parse_config` call performs: exactly one
when the declaration registered a hook, none otherwise. -/
def hookRuns (ops : List BindOp) : List Nat :=
  match lastHook ops with
  | some h => [h]
  | none => []

/-- Whether a declaration step carries a populated (non-default) nested
sub-tree; bind calls for primitive shapes and hook registrations hold
trivially. -/
def compositePopulated : BindOp → Bool
  | .bindParam _ _ (.composite sub) _ => !sub.isEmpty
  | _ => true

/-! ## Shape-indexed view of the conversion registry (for the bind-flag
legality property) -/

/-- The failure component of a conversion outcome. -/
def errOf : Except CFailure α → Option CFailure
  | .error f => some f
  | .ok _ => none

/-- The legal bind-flag mask of each registered shape: the `types` /
`classes` / `methods` masks for the resolved-symbol shapes,
`skip_empty_string` for the optional string, and the empty mask for every
other shape (`ASSERT_NO_BINDFLAGS`). -/
def shapeMask : PrimShape → Nat
  | .optString => Configurable.bindflags.optionals.skip_empty_string
  | .vecType => Configurable.bindflags.types.mask
  | .setType => Configurable.bindflags.types.mask
  | .setConstType => Configurable.bindflags.types.mask
  | .setClass => Configurable.bindflags.classes.mask
  | .setMethod => Configurable.bindflags.methods.mask
  | _ => 0

/-- The message of the leading bind-flag assertion of each conversion. -/
def shapeAssertMsg : PrimShape → Nat → String
  | .float, _ => "No bindflags may be specified for a float"
  | .int, _ => "No bindflags may be specified for a int"
  | .uint, _ => "No bindflags may be specified for a unsigned int"
  | .long, _ => "No bindflags may be specified for a long"
  | .ulong, _ => "No bindflags may be specified for a unsigned long"
  | .longlong, _ => "No bindflags may be specified for a long long"
  | .ulonglong, _ => "No bindflags may be specified for a unsigned long long"
  | .bool, _ => "No bindflags may be specified for a bool"
  | .string, _ => "No bindflags may be specified for a std::string"
  | .json, _ => "No bindflags may be specified for a Json::Value"
  | .optString, _ =>
    "Only bindflags::optionals::skip_empty_string may be specified for a boost::optional<std::string>"
  | .vecString, _ => "No bindflags may be specified for a std::vector<std::string>"
  | .setString, _ => "No bindflags may be specified for a std::unordered_set<std::string>"
  | .vecType, _ => "Only type bindflags may be specified for a std::vector<DexType*>"
  | .setType, b =>
    "Only type bindflags may be specified for a std::unordered_set<DexType*>, you specified "
      ++ toString b
  | .setConstType, _ => "Only type bindflags may be specified for a std::unordered_set<DexType*>"
  | .setClass, _ => "Only type bindflags may be specified for a std::unordered_set<DexClass*>"
  | .setMethod, _ => "Only method bindflags may be specified for a std::unordered_set<DexMethod*>"
  | .mapVecString, _ => "No bindflags may be specified for a Configurable::MapOfVectorOfStrings"

/-- The failure (if any) produced by invoking the conversion registered
for a shape on a node with the given bind flags. -/
def convertFailure (sh : PrimShape) (st : SymbolTables) (v : JsonValue) (b : Nat) :
    Option CFailure :=
  match sh with
  | .float => errOf (Configurable.as_float v b)
  | .int => errOf (Configurable.as_int v b)
  | .uint => errOf (Configurable.as_uint v b)
  | .long => errOf (Configurable.as_long v b)
  | .ulong => errOf (Configurable.as_ulong v b)
  | .longlong => errOf (Configurable.as_longlong v b)
  | .ulonglong => errOf (Configurable.as_ulonglong v b)
  | .bool => errOf (Configurable.as_bool v b)
  | .string => errOf (Configurable.as_string v b)
  | .json => errOf (Configurable.as_json v b)
  | .optString => errOf (Configurable.as_optional_string v b)
  | .vecString => errOf (Configurable.as_vector_string v b)
  | .setString => errOf (Configurable.as_set_string v b)
  | .vecType => errOf (Configurable.as_vector_DexType st v b)
  | .setType => errOf (Configurable.as_set_DexType st v b)
  | .setConstType => errOf (Configurable.as_set_constDexType st v b)
  | .setClass => errOf (Configurable.as_set_DexClass st v b)
  | .setMethod => errOf (Configurable.as_set_DexMethod st v b)
  | .mapVecString => errOf (Configurable.as_MapOfVectorOfStrings v b)

/-- A symbol-table instance resolving nothing (for concrete evaluations). -/
def stEmpty : SymbolTables :=
  ⟨fun _ => none, fun _ => none, fun _ => none, fun _ => none, fun _ => none, fun _ => false⟩

/-- A symbol-table instance knowing exactly the types named `A`
(handle 1) and `C` (handle 3). -/
def stAC : SymbolTables :=
  ⟨fun s => if s = "A" then some 1 else if s = "C" then some 3 else none,
   fun _ => none, fun _ => none, fun _ => none, fun _ => none, fun _ => false⟩

/-- A symbol-table instance where the method name `m` resolves to a
non-definition reference (handle 5) and `d` to a concrete definition
(handle 7). -/
def stM : SymbolTables :=
  ⟨fun _ => none, fun _ => none, fun _ => none, fun _ => none,
   fun s => if s = "m" then some 5 else if s = "d" then some 7 else none,
   fun m => m == 7⟩

/-- A fresh engine state (no hook, no environment, no fields written). -/
def st0 : EngineState := ⟨none, none, fun _ => none⟩

/-- A unit declaring two parameters with distinct names and registering a
hook in between. -/
def u2 : CUnit :=
  ⟨"u2", "d2",
   [BindOp.bindParam "p1" "da" (ParamType.primitive PrimShape.bool) JsonValue.null,
    BindOp.setAfterConfig 9,
    BindOp.bindParam "p2" "db" (ParamType.primitive PrimShape.string) JsonValue.null]⟩

/-- The invariant claimed for every stored schema entry: a PRIMITIVE entry
has a non-empty type name and the default-constructed empty nested tree; a
COMPOSITE entry has an empty type name and a populated nested tree. -/
def entryInvariant (p : CRParam) : Prop :=
  (p.kind = CRKind.PRIMITIVE → p.typeName ≠ "" ∧ p.nested = ConfigurableReflection.empty)
  ∧ (p.kind = CRKind.COMPOSITE → p.typeName = "" ∧ p.nested.isEmpty = false)

/-- A unit declaring one primitive parameter and one nested composite
parameter with a populated sub-tree. -/
def u9 : CUnit :=
  ⟨"u9", "d9",
   [BindOp.bindParam "x" "dx" (ParamType.primitive PrimShape.float) JsonValue.null,
    BindOp.bindParam "y" "dy"
      (ParamType.composite (ConfigurableReflection.mk "sub" "sd" [])) JsonValue.null]⟩

/-! ## Basic lemmas -/

theorem hasOnly_zero (b : Nat) : hasOnly b 0 = false ↔ b ≠ 0 := by
  constructor
  · intro h hb
    subst hb
    simp [hasOnly] at h
  · intro h
    simp only [hasOnly, Nat.and_zero, beq_eq_false_iff_ne, ne_eq]
    exact fun e => h e.symm

theorem foldl_insert_eq_union_toFinset (l : List String) (s : Finset String) :
    l.foldl (fun acc x => insert x acc) s = s ∪ l.toFinset := by
  induction l generalizing s with
  | nil => simp
  | cons x l ih =>
    simp only [List.foldl_cons, List.toFinset_cons, ih, Finset.insert_union, Finset.union_insert]

theorem as_set_string_eval (xs : List String) :
    Configurable.as_set_string (JsonValue.arr (xs.map JsonValue.str)) 0 = .ok xs.toFinset := by
  simp [Configurable.as_set_string, JsonValue.elements, List.foldl_map, JsonValue.asString,
    foldl_insert_eq_union_toFinset]

theorem map_asString_str (xs : List String) :
    (xs.map JsonValue.str).map (fun el => el.asString) = xs := by
  induction xs with
  | nil => rfl
  | cons x xs ih =>
    rw [List.map_cons, List.map_cons, ih]
    rfl

theorem as_vector_string_eval (xs : List String) :
    Configurable.as_vector_string (JsonValue.arr (xs.map JsonValue.str)) 0 = .ok xs := by
  have h := map_asString_str xs
  simp only [Configurable.as_vector_string, JsonValue.elements, if_true]
  rw [h]

/-! ## Claim theorems -/

/-- C6: the optional-string conversion of the empty string yields absent
exactly when `skip_empty_string` is set and a present empty string
otherwise; a non-empty string is returned present under every legal flag
set; any flag bit other than `skip_empty_string` aborts fatally. -/
theorem C6_optional_string_policy :
    (Configurable.as_optional_string (JsonValue.str "")
        Configurable.bindflags.optionals.skip_empty_string = .ok none)
    ∧ (Configurable.as_optional_string (JsonValue.str "") 0 = .ok (some ""))
    ∧ (∀ s : String, s ≠ "" → ∀ b : Nat,
        hasOnly b Configurable.bindflags.optionals.skip_empty_string = true →
        Configurable.as_optional_string (JsonValue.str s) b = .ok (some s))
    ∧ (∀ b : Nat, hasOnly b Configurable.bindflags.optionals.skip_empty_string = false →
        ∀ v : JsonValue, Configurable.as_optional_string v b = .error (.assertFail
          "Only bindflags::optionals::skip_empty_string may be specified for a boost::optional<std::string>")) := by
  refine ⟨rfl, rfl, ?_, ?_⟩
  · intro s hs b hb
    simp [Configurable.as_optional_string, hb, JsonValue.asString, hs]
  · intro b hb v
    simp [Configurable.as_optional_string, hb]

theorem C6_optional_string_policy_witness :
    ((("x" : String) ≠ "")
      ∧ hasOnly Configurable.bindflags.optionals.skip_empty_string
          Configurable.bindflags.optionals.skip_empty_string = true
      ∧ Configurable.as_optional_string (JsonValue.str "x")
          Configurable.bindflags.optionals.skip_empty_string = .ok (some "x"))
    ∧ (hasOnly 3 Configurable.bindflags.optionals.skip_empty_string = false
      ∧ Configurable.as_optional_string JsonValue.null 3 = .error (.assertFail
          "Only bindflags::optionals::skip_empty_string may be specified for a boost::optional<std::string>")) :=
  ⟨⟨by decide, by decide,
      C6_optional_string_policy.2.2.1 "x" (by decide) _ (by decide)⟩,
   ⟨by decide, C6_optional_string_policy.2.2.2 3 (by decide) JsonValue.null⟩⟩

/-- C8: converting an array of strings as a set yields the same set for
any two inputs with the same member strings (reorderings and duplicate
extensions included), whereas the sequence conversion keeps every element
in encounter order, duplicates included; in particular
`["a","b","a"]` and `["b","a"]` agree as sets and differ as sequences. -/
theorem C8_set_vs_sequence :
    (∀ xs ys : List String, (∀ s, s ∈ xs ↔ s ∈ ys) →
      Configurable.as_set_string (JsonValue.arr (xs.map JsonValue.str)) 0
        = Configurable.as_set_string (JsonValue.arr (ys.map JsonValue.str)) 0)
    ∧ (∀ xs : List String,
      Configurable.as_vector_string (JsonValue.arr (xs.map JsonValue.str)) 0 = .ok xs)
    ∧ (Configurable.as_set_string (JsonValue.arr [.str "a", .str "b", .str "a"]) 0
        = Configurable.as_set_string (JsonValue.arr [.str "b", .str "a"]) 0)
    ∧ (Configurable.as_vector_string (JsonValue.arr [.str "a", .str "b", .str "a"]) 0
        ≠ Configurable.as_vector_string (JsonValue.arr [.str "b", .str "a"]) 0) := by
  refine ⟨?_, as_vector_string_eval, ?_, ?_⟩
  · intro xs ys h
    rw [as_set_string_eval, as_set_string_eval]
    exact congrArg Except.ok (Finset.ext fun s => by
      simp only [List.mem_toFinset]
      exact h s)
  · show Configurable.as_set_string (JsonValue.arr (["a", "b", "a"].map JsonValue.str)) 0
      = Configurable.as_set_string (JsonValue.arr (["b", "a"].map JsonValue.str)) 0
    rw [as_set_string_eval, as_set_string_eval]
    exact congrArg Except.ok (by decide)
  · show Configurable.as_vector_string (JsonValue.arr (["a", "b", "a"].map JsonValue.str)) 0
      ≠ Configurable.as_vector_string (JsonValue.arr (["b", "a"].map JsonValue.str)) 0
    rw [as_vector_string_eval, as_vector_string_eval]
    intro h
    have : (["a", "b", "a"] : List String) = ["b", "a"] := by injection h
    exact absurd this (by decide)

theorem C8_set_vs_sequence_witness :
    (∀ s : String, s ∈ (["a", "b", "a"] : List String) ↔ s ∈ (["b", "a"] : List String))
    ∧ Configurable.as_set_string (JsonValue.arr (["a", "b", "a"].map JsonValue.str)) 0
        = Configurable.as_set_string (JsonValue.arr (["b", "a"].map JsonValue.str)) 0 :=
  ⟨fun s => by simp only [List.mem_cons, List.not_mem_nil, or_false]; tauto,
   C8_set_vs_sequence.1 ["a", "b", "a"] ["b", "a"]
     (fun s => by simp only [List.mem_cons, List.not_mem_nil, or_false]; tauto)⟩

/-- C3 (counterexample): on the object `{"a": ["x","y"], "b": []}` the map
conversion does NOT return an entry for `b`: a `result[k]` entry is
created only inside the element loop, so a key with an empty array
contributes nothing; the result is `{a: [x,y]}`, not `{a: [x,y], b: []}`
as the claim states. -/
theorem C3_empty_key_dropped :
    Configurable.as_MapOfVectorOfStrings
      (JsonValue.obj [("a", JsonValue.arr [.str "x", .str "y"]), ("b", JsonValue.arr [])]) 0
      = .ok [("a", ["x", "y"])]
    ∧ (Configurable.as_MapOfVectorOfStrings
      (JsonValue.obj [("a", JsonValue.arr [.str "x", .str "y"]), ("b", JsonValue.arr [])]) 0
      ≠ .ok [("a", ["x", "y"]), ("b", [])]) :=
  ⟨rfl, by intro h; rw [show Configurable.as_MapOfVectorOfStrings
      (JsonValue.obj [("a", JsonValue.arr [.str "x", .str "y"]), ("b", JsonValue.arr [])]) 0
      = .ok [("a", ["x", "y"])] from rfl] at h; simp at h⟩

/-- C3 (amended): the nested map conversion of `{"a": ["x","y"], "b": []}`
returns the mapping `{a: [x,y]}` — a key whose array is empty contributes
no entry, since entries are created only when a string element is
appended; applied to any non-object node it fails for every bind-flags
value, and with legal (zero) bind flags the failure is the
structural-mismatch `runtime_error`. -/
theorem C3_map_conversion :
    (Configurable.as_MapOfVectorOfStrings
      (JsonValue.obj [("a", JsonValue.arr [.str "x", .str "y"]), ("b", JsonValue.arr [])]) 0
      = .ok [("a", ["x", "y"])])
    ∧ (∀ v : JsonValue, v.isObject = false →
        Configurable.as_MapOfVectorOfStrings v 0
          = .error (.runtimeError ("expected object, got:" ++ v.asString)))
    ∧ (∀ v : JsonValue, v.isObject = false → ∀ b : Nat,
        (Configurable.as_MapOfVectorOfStrings v b).isOk = false) := by
  refine ⟨rfl, ?_, ?_⟩
  · intro v hv
    simp [Configurable.as_MapOfVectorOfStrings, hv]
  · intro v hv b
    simp only [Configurable.as_MapOfVectorOfStrings, hv, Bool.not_false, if_true]
    split
    · rfl
    · rfl

theorem C3_map_conversion_witness :
    (JsonValue.str "z").isObject = false
    ∧ Configurable.as_MapOfVectorOfStrings (JsonValue.str "z") 0
        = .error (.runtimeError ("expected object, got:" ++ (JsonValue.str "z").asString)) :=
  ⟨rfl, C3_map_conversion.2.1 (JsonValue.str "z") rfl⟩

/-- C4: for every registered shape, invoking its conversion with bind
flags containing any bit outside the shape's legal mask fails with the
leading bind-flag assertion, for every node and symbol table (the check
precedes any inspection of document data). -/
theorem C4_illegal_bindflags_abort :
    ∀ (sh : PrimShape) (st : SymbolTables) (v : JsonValue) (b : Nat),
      hasOnly b (shapeMask sh) = false →
      convertFailure sh st v b = some (.assertFail (shapeAssertMsg sh b)) := by
  intro sh st v b h
  cases sh <;>
    simp_all [shapeMask, convertFailure, errOf, shapeAssertMsg, hasOnly_zero,
      Configurable.as_float, Configurable.as_int, Configurable.as_uint, Configurable.as_long,
      Configurable.as_ulong, Configurable.as_longlong, Configurable.as_ulonglong,
      Configurable.as_bool, Configurable.as_string, Configurable.as_json,
      Configurable.as_optional_string, Configurable.as_vector_string,
      Configurable.as_set_string, Configurable.as_vector_DexType,
      Configurable.as_set_DexType, Configurable.as_set_constDexType,
      Configurable.as_set_DexClass, Configurable.as_set_DexMethod,
      Configurable.as_MapOfVectorOfStrings]

theorem C4_illegal_bindflags_abort_witness :
    (hasOnly 7 (shapeMask PrimShape.float) = false
      ∧ convertFailure PrimShape.float stEmpty JsonValue.null 7
          = some (.assertFail (shapeAssertMsg PrimShape.float 7)))
    ∧ (hasOnly 7 (shapeMask PrimShape.setMethod) = false
      ∧ convertFailure PrimShape.setMethod stEmpty JsonValue.null 7
          = some (.assertFail (shapeAssertMsg PrimShape.setMethod 7))) :=
  ⟨⟨by decide, C4_illegal_bindflags_abort PrimShape.float stEmpty JsonValue.null 7 (by decide)⟩,
   ⟨by decide, C4_illegal_bindflags_abort PrimShape.setMethod stEmpty JsonValue.null 7 (by decide)⟩⟩

/-- C1 (code bug): under `warn_if_unresolvable` the failing element is
dropped and the resolved symbols are returned in order, but NO diagnostic
is emitted — the `error_or_warn` macro prints exactly when the warn bit is
NOT set (`if (!(warn)) fprintf(...)`), inverting the flag's documented
meaning; under `error_if_unresolvable` the conversion aborts on the first
failing element; with neither bit set a diagnostic IS emitted. -/
theorem C1_warn_policy_inverted :
    Configurable.as_vector_DexType stAC
      (JsonValue.arr [.str "A", .str "B", .str "C"])
      Configurable.bindflags.types.warn_if_unresolvable
      = .ok ([1, 3], [])
    ∧ Configurable.as_vector_DexType stAC
      (JsonValue.arr [.str "A", .str "B", .str "C"])
      Configurable.bindflags.types.error_if_unresolvable
      = .error (.assertFail "\"B\" failed to resolve to a known type")
    ∧ Configurable.as_vector_DexType stAC
      (JsonValue.arr [.str "A", .str "B", .str "C"]) 0
      = .ok ([1, 3], ["\"B\" failed to resolve to a known type"]) :=
  ⟨rfl, rfl, rfl⟩

theorem methodSetLoop_mem (st : SymbolTables) (b : Nat) :
    ∀ (els : List JsonValue) (acc : Finset Nat) (ds : List String)
      (r : Finset Nat × List String),
      Configurable.methodSetLoop st b els acc ds = .ok r →
      ∀ m ∈ r.1, m ∈ acc ∨ st.methodIsDef m = true := by
  intro els
  induction els with
  | nil =>
    intro acc ds r h m hm
    simp only [Configurable.methodSetLoop] at h
    injection h with h2
    subst h2
    exact Or.inl hm
  | cons el rest ih =>
    intro acc ds r h m hm
    simp only [Configurable.methodSetLoop] at h
    split at h
    · split at h
      · exact absurd h (by simp)
      · exact ih _ _ _ h m hm
    · rename_i m2 hres
      split at h
      · split at h
        · exact absurd h (by simp)
        · exact ih _ _ _ h m hm
      · rename_i hdef
        have hmem := ih _ _ _ h m hm
        rcases hmem with hin | hd
        · rcases Finset.mem_insert.mp hin with he | hin2
          · subst he
            right
            simpa using hdef
          · exact Or.inl hin2
        · exact Or.inr hd

theorem methodSetLoop_notdef_abort (st : SymbolTables) (b : Nat)
    (hb : b &&& Configurable.bindflags.methods.error_if_not_def ≠ 0) :
    ∀ (els : List JsonValue) (acc : Finset Nat) (ds : List String),
      (∃ el ∈ els, st.resolvesNonDef el.asString = true) →
      (Configurable.methodSetLoop st b els acc ds).isOk = false := by
  intro els
  induction els with
  | nil =>
    intro acc ds hex
    rcases hex with ⟨w, hw, _⟩
    exact absurd hw (List.not_mem_nil w)
  | cons el rest ih =>
    intro acc ds hex
    rcases hex with ⟨w, hw, hwnd⟩
    simp only [Configurable.methodSetLoop]
    cases hres : st.getMethodByName el.asString with
    | none =>
      rcases List.mem_cons.mp hw with he | hwrest
      · subst he
        simp [SymbolTables.resolvesNonDef, hres] at hwnd
      · simp only [hres]
        split
        · rfl
        · exact ih acc _ ⟨w, hwrest, hwnd⟩
    | some m2 =>
      simp only [hres]
      by_cases hdef : st.methodIsDef m2 = true
      · simp only [hdef, Bool.not_true, Bool.false_eq_true, if_false]
        rcases List.mem_cons.mp hw with he | hwrest
        · subst he
          simp [SymbolTables.resolvesNonDef, hres, hdef] at hwnd
        · exact ih _ _ ⟨w, hwrest, hwnd⟩
      · have hdef2 : st.methodIsDef m2 = false := by
          cases hb2 : st.methodIsDef m2
          · rfl
          · exact absurd hb2 hdef
        simp only [hdef2, Bool.not_false, if_true]
        rw [show (decide (b &&& Configurable.bindflags.methods.error_if_not_def ≠ 0)) = true
          from decide_eq_true hb]
        rfl

theorem methodSetLoop_unresolved (st : SymbolTables) (b : Nat)
    (hbe : b &&& Configurable.bindflags.methods.error_if_unresolvable = 0) :
    ∀ (els : List JsonValue) (acc : Finset Nat) (ds : List String),
      (∀ el ∈ els, st.getMethodByName el.asString = none) →
      ∃ ds2, Configurable.methodSetLoop st b els acc ds = .ok (acc, ds2) := by
  intro els
  induction els with
  | nil =>
    intro acc ds _
    exact ⟨ds, rfl⟩
  | cons el rest ih =>
    intro acc ds hall
    have hel : st.getMethodByName el.asString = none := hall el (List.mem_cons_self el rest)
    have hrest : ∀ e ∈ rest, st.getMethodByName e.asString = none :=
      fun e he => hall e (List.mem_cons_of_mem el he)
    simp only [Configurable.methodSetLoop, hel]
    rw [show (decide (b &&& Configurable.bindflags.methods.error_if_unresolvable ≠ 0)) = false
      from by simp [hbe]]
    simp only [error_or_warn, Bool.false_eq_true, if_false]
    cases hq : decide (b &&& Configurable.bindflags.methods.warn_if_unresolvable ≠ 0) with
    | false =>
      simp only [hq, Bool.not_false, if_true]
      exact ih acc _ hrest
    | true =>
      simp only [hq, Bool.not_true, Bool.false_eq_true, if_false]
      exact ih acc _ hrest

/-- C7: in the Method-set conversion the not-a-concrete-definition check
is gated by the `error_if_not_def` / `warn_if_not_def` pair and performed
only after name resolution succeeds: a successful conversion returns only
concrete definitions; with `error_if_not_def` set, any element resolving
to a non-definition makes the conversion abort; an element that does not
resolve at all never triggers the not-def abort (with the unresolvable
error bit clear, a fully unresolvable input still converts, to the empty
set). -/
theorem C7_method_not_def_policy :
    (∀ (st : SymbolTables) (v : JsonValue) (b : Nat) (r : Finset Nat × List String),
      Configurable.as_set_DexMethod st v b = .ok r →
      ∀ m ∈ r.1, st.methodIsDef m = true)
    ∧ (∀ (st : SymbolTables) (v : JsonValue) (b : Nat),
      b &&& Configurable.bindflags.methods.error_if_not_def ≠ 0 →
      (∃ el ∈ v.elements, st.resolvesNonDef el.asString = true) →
      (Configurable.as_set_DexMethod st v b).isOk = false)
    ∧ (∀ (st : SymbolTables) (v : JsonValue) (b : Nat),
      hasOnly b Configurable.bindflags.methods.mask = true →
      b &&& Configurable.bindflags.methods.error_if_unresolvable = 0 →
      (∀ el ∈ v.elements, st.getMethodByName el.asString = none) →
      ∃ ds, Configurable.as_set_DexMethod st v b = .ok (∅, ds)) := by
  refine ⟨?_, ?_, ?_⟩
  · intro st v b r h m hm
    simp only [Configurable.as_set_DexMethod] at h
    split at h
    · have hmem := methodSetLoop_mem st b v.elements ∅ [] r h m hm
      rcases hmem with h0 | hd
      · exact absurd h0 (Finset.not_mem_empty m)
      · exact hd
    · exact absurd h (by simp)
  · intro st v b hb hex
    simp only [Configurable.as_set_DexMethod]
    split
    · exact methodSetLoop_notdef_abort st b hb v.elements ∅ [] hex
    · rfl
  · intro st v b hmask hbe hall
    simp only [Configurable.as_set_DexMethod, hmask, if_true]
    exact methodSetLoop_unresolved st b hbe v.elements ∅ [] hall

theorem C7_method_not_def_policy_witness :
    (Configurable.as_set_DexMethod stM (JsonValue.arr [.str "d", .str "m"]) 0
        = .ok (insert 7 ∅, ["\"m\" resolved to a method reference"])
      ∧ ∀ m ∈ insert 7 (∅ : Finset Nat), stM.methodIsDef m = true)
    ∧ ((64 : Nat) &&& Configurable.bindflags.methods.error_if_not_def ≠ 0
      ∧ (∃ el ∈ (JsonValue.arr [.str "m"]).elements, stM.resolvesNonDef el.asString = true)
      ∧ (Configurable.as_set_DexMethod stM (JsonValue.arr [.str "m"]) 64).isOk = false)
    ∧ (hasOnly 64 Configurable.bindflags.methods.mask = true
      ∧ (64 : Nat) &&& Configurable.bindflags.methods.error_if_unresolvable = 0
      ∧ (∀ el ∈ (JsonValue.arr [.str "z"]).elements, stM.getMethodByName el.asString = none)
      ∧ ∃ ds, Configurable.as_set_DexMethod stM (JsonValue.arr [.str "z"]) 64 = .ok (∅, ds)) :=
  ⟨⟨rfl, fun m hm =>
      C7_method_not_def_policy.1 stM (JsonValue.arr [.str "d", .str "m"]) 0
        (insert 7 ∅, ["\"m\" resolved to a method reference"]) rfl m hm⟩,
   ⟨by decide, by decide,
      C7_method_not_def_policy.2.1 stM (JsonValue.arr [.str "m"]) 64 (by decide) (by decide)⟩,
   ⟨by decide, by decide, by decide,
      C7_method_not_def_policy.2.2 stM (JsonValue.arr [.str "z"]) 64 (by decide) (by decide)
        (by decide)⟩⟩

/-! ## Engine lemmas -/

theorem runOps_cons (op : BindOp) (ops : List BindOp) (st : EngineState) :
    runOps (op :: ops) st = runOps ops (bindStep st op) := rfl

theorem bindStep_parserEnv (st : EngineState) (op : BindOp) :
    (bindStep st op).parserEnv = st.parserEnv := by
  cases op <;> rfl

theorem runOps_parserEnv (ops : List BindOp) (st : EngineState) :
    (runOps ops st).parserEnv = st.parserEnv := by
  induction ops generalizing st with
  | nil => rfl
  | cons op ops ih => rw [runOps_cons, ih, bindStep_parserEnv]

theorem runOps_after (ops : List BindOp) (st : EngineState) :
    (runOps ops st).after_configuration =
      match lastHook ops with
      | some h => some h
      | none => st.after_configuration := by
  induction ops generalizing st with
  | nil => rfl
  | cons op ops ih =>
    cases op with
    | bindParam n d ty dflt =>
      rw [runOps_cons, ih]
      rfl
    | setAfterConfig h =>
      rw [runOps_cons, ih]
      simp only [lastHook]
      cases lastHook ops <;> rfl

theorem runOps_fields (ops : List BindOp) (st : EngineState) (k : String) :
    (runOps ops st).fields k =
      match lastDefaultFor ops k with
      | some d => some ((envLookup st.parserEnv k).getD d)
      | none => st.fields k := by
  induction ops generalizing st with
  | nil => rfl
  | cons op ops ih =>
    cases op with
    | setAfterConfig h =>
      rw [runOps_cons, ih]
      rfl
    | bindParam n d ty dflt =>
      rw [runOps_cons, ih]
      cases hld : lastDefaultFor ops k with
      | some d2 =>
        simp only [lastDefaultFor, hld]
        rfl
      | none =>
        simp only [lastDefaultFor, hld, bindStep, updateField]
        by_cases hk : k = n
        · subst hk
          simp
        · rw [if_neg hk, if_neg fun e => hk e.symm]

theorem parse_config_fst (u : CUnit) (doc : JsonValue) (st : EngineState) :
    (Configurable.parse_config u doc st).1
      = runOps u.ops { st with after_configuration := none, parserEnv := some doc } := by
  simp only [Configurable.parse_config]
  split <;> rfl

theorem parse_config_snd (u : CUnit) (doc : JsonValue) (st : EngineState) :
    (Configurable.parse_config u doc st).2 = hookRuns u.ops := by
  have h := runOps_after u.ops { st with after_configuration := none, parserEnv := some doc }
  simp only [Configurable.parse_config]
  split
  · rename_i h2 heq
    rw [heq] at h
    cases hl : lastHook u.ops with
    | some h3 =>
      simp only [hl] at h
      injection h with h4
      rw [hookRuns, hl, h4]
    | none =>
      simp only [hl] at h
      exact absurd h (by simp)
  · rename_i heq
    rw [heq] at h
    cases hl : lastHook u.ops with
    | some h3 =>
      simp only [hl] at h
      exact absurd h (by simp)
    | none =>
      rw [hookRuns, hl]

theorem parse_config_indep (u : CUnit) (doc : JsonValue) (s1 s2 : EngineState)
    (h : ∀ k, lastDefaultFor u.ops k = none → s1.fields k = s2.fields k) :
    Configurable.parse_config u doc s1 = Configurable.parse_config u doc s2 := by
  have key : runOps u.ops { s1 with after_configuration := none, parserEnv := some doc }
      = runOps u.ops { s2 with after_configuration := none, parserEnv := some doc } := by
    apply EngineState.ext
    · rw [runOps_after, runOps_after]
    · rw [runOps_parserEnv, runOps_parserEnv]
    · funext k
      rw [runOps_fields, runOps_fields]
      cases hld : lastDefaultFor u.ops k with
      | some d => rfl
      | none => exact h k hld
  simp only [Configurable.parse_config]
  rw [key]

/-- C5: `configure(document)` resets the post-configure hook, installs the
BIND environment over the document, runs the declaration once, and then
invokes the hook exactly once iff the declaration registered one; hence
two consecutive `configure` calls leave exactly the state of a single
second call (no residual state), with the hook run once per call. -/
theorem C5_configure_twice (u : CUnit) (doc1 doc2 : JsonValue) (st : EngineState) :
    Configurable.parse_config u doc2 (Configurable.parse_config u doc1 st).1
      = Configurable.parse_config u doc2 st
    ∧ (Configurable.parse_config u doc1 st).2 = hookRuns u.ops
    ∧ (Configurable.parse_config u doc2 (Configurable.parse_config u doc1 st).1).2
        = hookRuns u.ops
    ∧ (Configurable.parse_config u doc1 st).1.after_configuration = lastHook u.ops := by
  refine ⟨?_, parse_config_snd u doc1 st, parse_config_snd u doc2 _, ?_⟩
  · apply parse_config_indep
    intro k hk
    rw [parse_config_fst, runOps_fields]
    simp only [hk]
  · rw [parse_config_fst, runOps_after]
    cases hl : lastHook u.ops <;> rfl

/-! ## Schema-tree lemmas -/

theorem crRun_cons (op : BindOp) (ops : List BindOp) (cr : ConfigurableReflection) :
    crRun (op :: ops) cr = crRun ops (crStep cr op) := rfl

theorem mkEntry_key (n d : String) (ty : ParamType) : (mkEntry n d ty).key = n := by
  cases ty <;> rfl

theorem crStep_bindParam_params (cr : ConfigurableReflection) (n d : String) (ty : ParamType)
    (dflt : JsonValue) :
    (crStep cr (.bindParam n d ty dflt)).params = setParams cr.params (mkEntry n d ty) := by
  cases cr
  rfl

theorem lookupKey_setParams (k : String) (ps : List CRParam) (e : CRParam) :
    lookupKey k (setParams ps e) = if e.key = k then some e else lookupKey k ps := by
  induction ps with
  | nil => rfl
  | cons p ps ih =>
    simp only [setParams]
    by_cases hpe : p.key = e.key
    · rw [if_pos hpe]
      simp only [lookupKey]
      by_cases hek : e.key = k
      · rw [if_pos hek, if_pos hek]
      · rw [if_neg hek, if_neg hek, if_neg (hpe ▸ hek : ¬p.key = k)]
    · rw [if_neg hpe]
      simp only [lookupKey, ih]
      by_cases hpk : p.key = k
      · rw [if_pos hpk]
        have hek : ¬e.key = k := fun e2 => hpe (hpk.trans e2.symm)
        rw [if_neg hek, if_pos hpk]
      · rw [if_neg hpk]
        by_cases hek : e.key = k
        · rw [if_pos hek, if_pos hek]
        · rw [if_neg hek, if_neg hek, if_neg hpk]

theorem countKey_setParams_ne (k : String) (e : CRParam) (hek : ¬e.key = k) :
    ∀ ps : List CRParam, countKey k (setParams ps e) = countKey k ps := by
  intro ps
  induction ps with
  | nil => simp [setParams, countKey, hek]
  | cons p ps ih =>
    simp only [setParams]
    by_cases hpe : p.key = e.key
    · rw [if_pos hpe]
      simp only [countKey]
      rw [if_neg hek, if_neg (fun h2 => hek (hpe.symm.trans h2))]
    · rw [if_neg hpe]
      simp only [countKey, ih]

theorem countKey_setParams_eq (k : String) (e : CRParam) (hek : e.key = k) :
    ∀ ps : List CRParam, countKey k ps ≤ 1 → countKey k (setParams ps e) = 1 := by
  intro ps
  induction ps with
  | nil =>
    intro _
    simp [setParams, countKey, hek]
  | cons p ps ih =>
    intro hinv
    simp only [setParams]
    by_cases hpe : p.key = e.key
    · rw [if_pos hpe]
      simp only [countKey] at hinv ⊢
      rw [if_pos hek]
      rw [if_pos (hpe.trans hek)] at hinv
      omega
    · rw [if_neg hpe]
      have hpk : ¬p.key = k := fun h2 => hpe (h2.trans hek.symm)
      simp only [countKey] at hinv ⊢
      rw [if_neg hpk] at hinv ⊢
      rw [ih (by omega)]

theorem mem_setParams (ps : List CRParam) (e p : CRParam) (h : p ∈ setParams ps e) :
    p = e ∨ p ∈ ps := by
  induction ps with
  | nil =>
    simp only [setParams] at h
    rcases List.mem_singleton.mp h with h2
    exact Or.inl h2
  | cons q ps ih =>
    simp only [setParams] at h
    by_cases hqe : q.key = e.key
    · rw [if_pos hqe] at h
      rcases List.mem_cons.mp h with h2 | h2
      · exact Or.inl h2
      · exact Or.inr (List.mem_cons_of_mem q h2)
    · rw [if_neg hqe] at h
      rcases List.mem_cons.mp h with h2 | h2
      · exact Or.inr (h2 ▸ List.mem_cons_self q ps)
      · rcases ih h2 with h3 | h3
        · exact Or.inl h3
        · exact Or.inr (List.mem_cons_of_mem q h3)

theorem lookupKey_crRun (ops : List BindOp) (cr : ConfigurableReflection) (k : String) :
    lookupKey k (crRun ops cr).params =
      match lastBindFor ops k with
      | some r => some (mkEntry k r.1 r.2)
      | none => lookupKey k cr.params := by
  induction ops generalizing cr with
  | nil => rfl
  | cons op ops ih =>
    cases op with
    | setAfterConfig h =>
      rw [crRun_cons, ih]
      rfl
    | bindParam n d ty dflt =>
      rw [crRun_cons, ih]
      cases hlb : lastBindFor ops k with
      | some r => simp only [lastBindFor, hlb]
      | none =>
        simp only [lastBindFor, hlb, crStep_bindParam_params, lookupKey_setParams, mkEntry_key]
        by_cases hk : n = k
        · subst hk
          simp
        · rw [if_neg hk, if_neg hk]

theorem countKey_crRun (ops : List BindOp) (cr : ConfigurableReflection) (k : String)
    (hinv : countKey k cr.params ≤ 1) :
    countKey k (crRun ops cr).params
      = if k ∈ issuedNames ops then 1 else countKey k cr.params := by
  induction ops generalizing cr with
  | nil => simp [crRun, issuedNames]
  | cons op ops ih =>
    cases op with
    | setAfterConfig h =>
      rw [crRun_cons]
      rw [show crStep cr (BindOp.setAfterConfig h) = cr from rfl]
      rw [ih cr hinv]
      rfl
    | bindParam n d ty dflt =>
      rw [crRun_cons]
      by_cases hk : n = k
      · have hset : countKey k (crStep cr (BindOp.bindParam n d ty dflt)).params = 1 := by
          rw [crStep_bindParam_params]
          exact countKey_setParams_eq k (mkEntry n d ty) ((mkEntry_key n d ty).trans hk)
            cr.params hinv
        rw [ih _ (hset.le)]
        simp only [issuedNames, List.mem_cons]
        by_cases hmem : k ∈ issuedNames ops
        · rw [if_pos hmem, if_pos (Or.inr hmem)]
        · rw [if_neg hmem, if_pos (Or.inl hk.symm), hset]
      · have hset : countKey k (crStep cr (BindOp.bindParam n d ty dflt)).params
            = countKey k cr.params := by
          rw [crStep_bindParam_params]
          exact countKey_setParams_ne k (mkEntry n d ty)
            (fun h2 => hk ((mkEntry_key n d ty).symm.trans h2)) cr.params
        rw [ih _ (hset.le.trans hinv)]
        simp only [issuedNames, List.mem_cons]
        by_cases hmem : k ∈ issuedNames ops
        · rw [if_pos hmem, if_pos (Or.inr hmem)]
        · rw [if_neg hmem, if_neg fun h2 => h2.elim (fun h3 => hk h3.symm) hmem, hset]

/-! ## Remaining claim theorems -/

/-- C2: `reflect()` returns a tree with exactly one entry per parameter
issued by the declaration (when the issued names are distinct), the tree
depends only on the unit (never on prior engine state, so no external
reads), the installed parser answers absent for every name, and the
post-configure hook is never invoked. -/
theorem C2_reflect_one_entry_per_param (u : CUnit) (st : EngineState)
    (h : (issuedNames u.ops).Nodup) :
    (∀ n : String,
      countKey n (Configurable.reflect u st).1.params = (issuedNames u.ops).count n)
    ∧ (∀ st2 : EngineState, (Configurable.reflect u st).1 = (Configurable.reflect u st2).1)
    ∧ (∀ n : String, envLookup (Configurable.reflect u st).2.1.parserEnv n = none)
    ∧ (Configurable.reflect u st).2.2 = [] := by
  refine ⟨?_, fun st2 => rfl, ?_, rfl⟩
  · intro n
    rw [show (Configurable.reflect u st).1 = crRun u.ops (.mk u.name u.doc []) from rfl,
      countKey_crRun u.ops (ConfigurableReflection.mk u.name u.doc []) n (Nat.zero_le 1)]
    by_cases hmem : n ∈ issuedNames u.ops
    · rw [if_pos hmem]
      exact (List.count_eq_one_of_mem h hmem).symm
    · rw [if_neg hmem]
      rw [List.count_eq_zero_of_not_mem hmem]
      rfl
  · intro n
    have hp : (Configurable.reflect u st).2.1.parserEnv = none := by
      rw [show (Configurable.reflect u st).2.1
          = runOps u.ops { st with after_configuration := none, parserEnv := none } from rfl,
        runOps_parserEnv]
    rw [hp]
    rfl

theorem C2_reflect_one_entry_per_param_witness :
    (issuedNames u2.ops).Nodup
    ∧ countKey "p1" (Configurable.reflect u2 st0).1.params = (issuedNames u2.ops).count "p1" :=
  ⟨by decide, (C2_reflect_one_entry_per_param u2 st0 (by decide)).1 "p1"⟩

/-- C10: the schema tree built by `reflect()` holds at most one entry per
parameter name, and the entry under a name is exactly the one the
reflector stored for the LAST bind call issued under that name (the later
declaration overwrites the earlier one). -/
theorem C10_later_binding_overwrites (u : CUnit) (st : EngineState) (n : String) :
    lookupKey n (Configurable.reflect u st).1.params
      = (lastBindFor u.ops n).map (fun r => mkEntry n r.1 r.2)
    ∧ countKey n (Configurable.reflect u st).1.params ≤ 1 := by
  constructor
  · rw [show (Configurable.reflect u st).1 = crRun u.ops (.mk u.name u.doc []) from rfl,
      lookupKey_crRun]
    cases lastBindFor u.ops n <;> rfl
  · rw [show (Configurable.reflect u st).1 = crRun u.ops (.mk u.name u.doc []) from rfl,
      countKey_crRun u.ops (ConfigurableReflection.mk u.name u.doc []) n (Nat.zero_le 1)]
    split
    · exact le_refl 1
    · exact Nat.zero_le 1

theorem reflectorTypeName_ne_empty (p : PrimShape) : reflectorTypeName p ≠ "" := by
  cases p <;> decide

theorem entryInvariant_mkEntry (n d : String) (ty : ParamType)
    (h : ∀ sub, ty = ParamType.composite sub → sub.isEmpty = false) :
    entryInvariant (mkEntry n d ty) := by
  cases ty with
  | primitive p =>
    constructor
    · intro _
      exact ⟨reflectorTypeName_ne_empty p, rfl⟩
    · intro hc
      simp [mkEntry, CRParam.kind] at hc
  | composite sub =>
    constructor
    · intro hc
      simp [mkEntry, CRParam.kind] at hc
    · intro _
      exact ⟨rfl, h sub rfl⟩

theorem crRun_entryInvariant (ops : List BindOp) (cr : ConfigurableReflection)
    (hops : ∀ op ∈ ops, compositePopulated op = true)
    (hcr : ∀ p ∈ cr.params, entryInvariant p) :
    ∀ p ∈ (crRun ops cr).params, entryInvariant p := by
  induction ops generalizing cr with
  | nil => exact hcr
  | cons op ops ih =>
    rw [crRun_cons]
    apply ih
    · exact fun o ho => hops o (List.mem_cons_of_mem op ho)
    · cases op with
      | setAfterConfig h => exact hcr
      | bindParam n d ty dflt =>
        intro p hp
        rw [crStep_bindParam_params] at hp
        rcases mem_setParams _ _ _ hp with he | hin
        · subst he
          apply entryInvariant_mkEntry
          intro sub hsub
          have hc := hops _ (List.mem_cons_self _ _)
          rw [hsub] at hc
          simpa [compositePopulated] using hc
        · exact hcr p hin

/-- C9: every entry of a schema tree built by `reflect()` satisfies the
kind invariant — PRIMITIVE entries carry a non-empty type name and an
empty nested tree, COMPOSITE entries carry an empty type name and a
populated nested tree (given that the declaration's nested units provide
populated sub-trees). -/
theorem C9_schema_entry_invariant (u : CUnit) (st : EngineState)
    (h : ∀ op ∈ u.ops, compositePopulated op = true) :
    ∀ p ∈ (Configurable.reflect u st).1.params, entryInvariant p :=
  crRun_entryInvariant u.ops (.mk u.name u.doc []) h
    (fun p hp => absurd hp (List.not_mem_nil p))

theorem C9_schema_entry_invariant_witness :
    (∀ op ∈ u9.ops, compositePopulated op = true)
    ∧ (∀ p ∈ (Configurable.reflect u9 st0).1.params, entryInvariant p) :=
  ⟨by decide, C9_schema_entry_invariant u9 st0 (by decide)⟩
